import Mathlib

/-!
# Verification of `src/poses/pose-io.js` (PoseSandbox)

A shallow embedding of the pose serialization / application / import module.
Numbers are modelled as rationals; JS objects used as string-keyed maps are
association lists with JS assignment semantics (overwrite in place, insertion
order preserved); the mutable world / scene / DOM sinks are an explicit
state record threaded through each operation.  A JS exception is modelled as
an `Option PoseErr` component of the result, returned together with the state
as it stood when the exception was raised (all validation checks in the
source precede the first mutation, so an error always carries the input
state unchanged).
-/

set_option autoImplicit false

namespace PoseIO

/-! ## JS string primitives (lowercasing, trimming, substring search) -/

/-- Boolean test that the first character list is a prefix of the second. -/
def chLeads : List Char → List Char → Bool
  | [], _ => true
  | _ :: _, [] => false
  | a :: as, b :: bs => a == b && chLeads as bs

/-- Boolean test that `pat` occurs contiguously inside the second list. -/
def chHasSub (pat : List Char) : List Char → Bool
  | [] => chLeads pat []
  | b :: bs => chLeads pat (b :: bs) || chHasSub pat bs

/-- JS `String.prototype.includes(pat)`. -/
def jsIncludes (s pat : String) : Bool :=
  chHasSub pat.data s.data

/-- JS `String.prototype.toLowerCase()` (ASCII case folding, as used here). -/
def jsToLower (s : String) : String :=
  String.mk (s.data.map Char.toLower)

/-- JS `String.prototype.trim()`: strip whitespace from both ends. -/
def jsTrim (s : String) : String :=
  String.mk (((s.data.dropWhile Char.isWhitespace).reverse.dropWhile
    Char.isWhitespace).reverse)

/-- JS `String.prototype.endsWith(suffix)`. -/
def jsEndsWith (s suffix : String) : Bool :=
  chLeads suffix.data.reverse s.data.reverse

/-! ## Data model

`Joint` models a `THREE.Group` used as a joint: a name and the quaternion as
the 4-element array produced by `quaternion.toArray()` (`[x, y, z, w]`).
`PropObj` models a prop `Group`: name, `position/quaternion/scale` as plain
numeric arrays, plus the `userData.type` / `userData.isProp` fields the module
reads and writes.  An absent `userData.type` is `none`; JS falsiness of a
present string value is the empty string. -/

structure Joint where
  name : String
  quaternion : List Rat
  deriving DecidableEq, Repr

structure PropObj where
  name : String
  position : List Rat
  quaternion : List Rat
  scale : List Rat
  userDataType : Option String
  userDataIsProp : Bool
  deriving DecidableEq, Repr

/-- A value stored under a joint name in `document.joints`: either a JS array
(of numbers, the only case the code inspects beyond `Array.isArray` and
`.length`) or some non-array value. -/
inductive JEntry where
  | qarr (q : List Rat)
  | nonArray
  deriving DecidableEq, Repr

/-- The `joints` field of a document: either a genuine object (modelled as an
association list, first binding wins on lookup) or anything that fails the
source's `data.joints && typeof data.joints === "object"` test (absent,
`null`, a primitive, ...). -/
inductive JointsField where
  | notMap
  | jmap (m : List (String × JEntry))
  deriving DecidableEq, Repr

/-- A prop descriptor as read from `document.props[i]`.  Fields the code
accesses; `none` models an absent field, and for `type`/`name` JS falsiness
of a present string is the empty string (arrays are always truthy, so
presence alone decides the `position`/`quaternion`/`scale` guards). -/
structure PropDesc where
  type : Option String
  name : String
  position : Option (List Rat)
  quaternion : Option (List Rat)
  scale : Option (List Rat)
  deriving DecidableEq, Repr

/-- The `props` field of a document: an array of descriptors, or anything
failing `Array.isArray`. -/
inductive PropsField where
  | notArray
  | parr (l : List PropDesc)
  deriving DecidableEq, Repr

/-- The `notes` field: a string, or anything failing
`typeof data.notes === "string"`. -/
inductive NotesField where
  | notStr
  | nstr (s : String)
  deriving DecidableEq, Repr

/-- A structured (`typeof === "object"`, non-null) document value: the fields
the module reads, plus the two the serializer writes but the applier
ignores. -/
structure ObjDoc where
  joints : JointsField
  props : PropsField
  notes : NotesField
  version : Option Rat
  savedAt : Option String
  deriving DecidableEq, Repr

/-- A JS value as far as the module's `typeof` / truthiness tests can
distinguish one. -/
inductive JVal where
  | vnull
  | vundef
  | vbool (b : Bool)
  | vnum (q : Rat)
  | vstr (s : String)
  | vfun
  | vobj (o : ObjDoc)
  deriving DecidableEq, Repr

/-- JS falsiness of a `JVal` (`!data`). -/
def jsFalsy : JVal → Bool
  | .vnull => true
  | .vundef => true
  | .vbool b => !b
  | .vnum q => q == 0
  | .vstr s => s == ""
  | .vfun => false
  | .vobj _ => false

/-- The JS test `typeof data === "object"` (true for objects, arrays and `null`). -/
def jsTypeofObject : JVal → Bool
  | .vnull => true
  | .vobj _ => true
  | _ => false

/-- Property read `data.joints` (on a non-object primitive this yields
`undefined`, which fails the map test; `null` never reaches a property read
in the module because it is rejected by the falsiness check first). -/
def JVal.jointsField : JVal → JointsField
  | .vobj o => o.joints
  | _ => .notMap

/-- Property read `data.props`. -/
def JVal.propsField : JVal → PropsField
  | .vobj o => o.props
  | _ => .notArray

/-- Property read `data.notes`. -/
def JVal.notesField : JVal → NotesField
  | .vobj o => o.notes
  | _ => .notStr

/-! ## JS object-as-map operations -/

/-- Lookup of a key in a JS object modelled as an association list with
unique keys maintained by `objSet` (first match returned). -/
def objLookup {α : Type} : List (String × α) → String → Option α
  | [], _ => none
  | (k', v') :: rest, k => if k' = k then some v' else objLookup rest k

/-- JS property assignment `m[k] = v`: overwrite in place if the key exists,
otherwise append (insertion order preserved). -/
def objSet {α : Type} : List (String × α) → String → α → List (String × α)
  | [], k, v => [(k, v)]
  | (k', v') :: rest, k, v =>
    if k' = k then (k', v) :: rest else (k', v') :: objSet rest k v

/-! ## The error vocabulary

One constructor per distinct `throw new Error(...)` site reachable from the
operations modelled here, tagged with the thrown message. -/

inductive PoseErr where
  | invalidPose      -- "Invalid pose JSON"
  | missingWorldSer  -- "serializePose: missing world"
  | missingWorld     -- "applyPose: missing world"
  | missingScene     -- "applyPose: missing scene"
  | invalidPresetDoc -- "Invalid preset/pose object"
  | missingJoints    -- "Pose missing joints"  (the InvalidPresetError)
  | missingWorldJO   -- "applyPoseJointsOnly: missing world"
  deriving DecidableEq, Repr

/-! ## Collaborators and mutable state

`Deps` carries the presence of each injected collaborator (the source tests
each with truthiness or `typeof === "function"`) plus the behaviour of the
prop factory: `addProp(t)` appends `factory t` to both `world.props` and the
scene (the intended contract appends exactly one prop, but the module never
checks this, so the model keeps it general).

`St` is the mutable environment: the world's joint and prop collections, a
log of props detached from the scene, the notes textarea value, and event
logs/counters for each outward hook (toasts with their optional duration,
outline refreshes, forced renders, `console.warn` calls, gallery re-renders
and gallery saves). -/

structure Deps where
  worldPresent : Bool
  jointsPresent : Bool
  propsPresent : Bool
  scenePresent : Bool
  poseNotesPresent : Bool
  addPropPresent : Bool
  showToastPresent : Bool
  updateOutlinePresent : Bool
  forceRenderPresent : Bool
  resetPresent : Bool
  factory : String → List PropObj

structure St where
  joints : List Joint
  props : List PropObj
  sceneRemoved : List PropObj
  notes : String
  toasts : List (String × Option Nat)
  outlineCount : Nat
  renderCount : Nat
  warnings : Nat
  galleryRenders : Nat
  gallerySaves : List String
  deriving DecidableEq, Repr

/-! ## `inferTypeFromLegacyName` (src/poses/pose-io.js lines 22–37) -/

/-- Ordered substring matching of the lowercased name, exactly the if-chain
of the source (note the third test matches the substring `"cyl"`). -/
def inferTypeFromLegacyName (name : String) : String :=
  if jsIncludes (jsToLower name) "sphere" then "sphere"
  else if jsIncludes (jsToLower name) "cube" || jsIncludes (jsToLower name) "box" then "cube"
  else if jsIncludes (jsToLower name) "cyl" then "cylinder"
  else if jsIncludes (jsToLower name) "cone" then "cone"
  else if jsIncludes (jsToLower name) "torus" then "torus"
  else if jsIncludes (jsToLower name) "ring" then "ring"
  else if jsIncludes (jsToLower name) "disc" || jsIncludes (jsToLower name) "circle" then "disc"
  else if jsIncludes (jsToLower name) "plane" then "plane"
  else if jsIncludes (jsToLower name) "icosa" then "icosa"
  else if jsIncludes (jsToLower name) "octa" then "octa"
  else if jsIncludes (jsToLower name) "dodeca" then "dodeca"
  else if jsIncludes (jsToLower name) "tetra" then "tetra"
  else "cube"

/-! ## `serializePose` (lines 41–64) -/

/-- The type tag the serializer records for a live prop:
`String(p?.userData?.type || inferTypeFromLegacyName(p))`. -/
def serPropType (p : PropObj) : String :=
  match p.userDataType with
  | some s => if s = "" then inferTypeFromLegacyName p.name else s
  | none => inferTypeFromLegacyName p.name

/-- One serialized prop descriptor (lines 49–55). -/
def serializeProp (p : PropObj) : PropDesc :=
  { type := some (serPropType p)
    name := p.name
    position := some p.position
    quaternion := some p.quaternion
    scale := some p.scale }

/-- The joints dictionary: `joints[j.name] = j.quaternion.toArray()` for each
live joint in order (assignment semantics: duplicate names overwrite, last
write wins). -/
def buildJointsMap (joints : List Joint) : List (String × JEntry) :=
  joints.foldl (fun m j => objSet m j.name (.qarr j.quaternion)) []

/-- The serializer `serializePose({world, poseNotesEl})`.  Here `now` stands for the value of
`new Date().toISOString()` at the call.  `none` models the thrown
"serializePose: missing world". -/
def serializePose (deps : Deps) (st : St) (now : String) : Option JVal :=
  if !(deps.worldPresent && deps.jointsPresent && deps.propsPresent) then none
  else
    some (.vobj
      { joints := .jmap (buildJointsMap st.joints)
        props := .parr (st.props.map serializeProp)
        notes := .nstr (if deps.poseNotesPresent then st.notes else "")
        version := some 1
        savedAt := some now })

/-! ## `applyPose` (lines 68–129) -/

/-- The per-joint rule of the joint step (lines 85–88): replace the
orientation absolutely when the name maps to a 4-element array, otherwise
leave the joint untouched. -/
def jointApplyRule (m : List (String × JEntry)) (j : Joint) : Joint :=
  match objLookup m j.name with
  | some (.qarr q) => if q.length = 4 then { j with quaternion := q } else j
  | _ => j

/-- The type key the prop step feeds the factory (line 101):
`String(pd?.type || "").trim().toLowerCase() || inferTypeFromLegacyName(pd)`. -/
def descType (pd : PropDesc) : String :=
  let s := jsToLower (jsTrim (match pd.type with | some s => s | none => ""))
  if s = "" then inferTypeFromLegacyName pd.name else s

/-- Lines 107–115: the field writes a descriptor performs on the prop taken
from the tail of `world.props` after the factory call. -/
def applyDesc (t : String) (pd : PropDesc) (p : PropObj) : PropObj :=
  { p with
    userDataType := some t
    userDataIsProp := true
    position := match pd.position with | some a => a | none => p.position
    quaternion := match pd.quaternion with | some a => a | none => p.quaternion
    scale := match pd.scale with | some a => a | none => p.scale
    name := if pd.name = "" then p.name else pd.name }

/-- One iteration of the prop rebuild loop (lines 98–116) acting on the
current `world.props`: invoke the factory, then mutate whatever prop now
sits at index `length - 1`, skipping only when the collection is empty. -/
def rebuildStep (deps : Deps) (props : List PropObj) (pd : PropDesc) :
    List PropObj :=
  if !deps.addPropPresent then props
  else
    let t := descType pd
    let props' := props ++ deps.factory t
    match props'.getLast? with
    | none => props'
    | some p => props'.dropLast ++ [applyDesc t pd p]

/-- The joint step (lines 84–89). -/
def jointsStage (data : JVal) (st : St) : St :=
  match data.jointsField with
  | .jmap m => { st with joints := st.joints.map (jointApplyRule m) }
  | .notMap => st

/-- The prop step (lines 92–117): detach every live prop, clear the
collection, then run the rebuild loop over the descriptors in order. -/
def propsStage (data : JVal) (deps : Deps) (st : St) : St :=
  match data.propsField with
  | .parr descs =>
    { st with
      sceneRemoved := st.sceneRemoved ++ st.props
      props := descs.foldl (fun acc pd => rebuildStep deps acc pd) [] }
  | .notArray => st

/-- The notes step (lines 120–122). -/
def notesStage (data : JVal) (deps : Deps) (st : St) : St :=
  match data.notesField with
  | .nstr s => if deps.poseNotesPresent then { st with notes := s } else st
  | .notStr => st

/-- The visual-refresh and toast hooks (lines 125–128). -/
def hooksStage (deps : Deps) (st : St) : St :=
  let st := if deps.updateOutlinePresent then
    { st with outlineCount := st.outlineCount + 1 } else st
  let st := if deps.forceRenderPresent then
    { st with renderCount := st.renderCount + 1 } else st
  if deps.showToastPresent then
    { st with toasts := st.toasts ++ [("Pose loaded", none)] } else st

/-- The body of `applyPose` after its three validation checks (lines
84–128). -/
def applyPoseBody (data : JVal) (deps : Deps) (st : St) : St :=
  hooksStage deps (notesStage data deps (propsStage data deps (jointsStage data st)))

/-- The full applier `applyPose(data, deps)` (lines 68–129): three fail-fast validation
checks, then the mutating body. -/
def applyPose (data : JVal) (deps : Deps) (st : St) : St × Option PoseErr :=
  if jsFalsy data || !jsTypeofObject data then (st, some .invalidPose)
  else if !(deps.worldPresent && deps.jointsPresent && deps.propsPresent) then
    (st, some .missingWorld)
  else if !deps.scenePresent then (st, some .missingScene)
  else (applyPoseBody data deps st, none)

/-! ## `applyPoseJointsOnly` (lines 131–165) -/

/-- The identity orientation `resetAllJointRotations` establishes
(`THREE.Quaternion` identity, `toArray` order `[x, y, z, w]`). -/
def idQuat : List Rat := [0, 0, 0, 1]

/-- One iteration of the counting joint loop (lines 148–154). -/
def jointsOnlyStep (m : List (String × JEntry)) (acc : List Joint × Nat)
    (j : Joint) : List Joint × Nat :=
  match objLookup m j.name with
  | some (.qarr q) =>
    if q.length = 4 then (acc.1 ++ [{ j with quaternion := q }], acc.2 + 1)
    else (acc.1 ++ [j], acc.2)
  | _ => (acc.1 ++ [j], acc.2)

/-- Whether a joint finds a well-formed entry in a joints map — the
condition under which both appliers overwrite it (and the joints-only
applier counts it). -/
def jointMatched (m : List (String × JEntry)) (j : Joint) : Bool :=
  match objLookup m j.name with
  | some (.qarr q) => q.length = 4
  | _ => false

/-- The preset applier `applyPoseJointsOnly(data, deps)` (lines 131–165):
returns the state,
the thrown error if any, and the `appliedCount` return value (meaningful
only when no error is raised). -/
def applyPoseJointsOnly (data : JVal) (deps : Deps) (st : St) :
    St × Option PoseErr × Nat :=
  if jsFalsy data || !jsTypeofObject data then (st, some .invalidPresetDoc, 0)
  else
    match data.jointsField with
    | .notMap => (st, some .missingJoints, 0)
    | .jmap m =>
      if !(deps.worldPresent && deps.jointsPresent) then
        (st, some .missingWorldJO, 0)
      else
        let joints0 :=
          if deps.resetPresent then
            st.joints.map (fun j => { j with quaternion := idQuat })
          else st.joints
        let r := joints0.foldl (jointsOnlyStep m) ([], 0)
        let st := { st with joints := r.1 }
        let st := if deps.updateOutlinePresent then
          { st with outlineCount := st.outlineCount + 1 } else st
        let st := if deps.forceRenderPresent then
          { st with renderCount := st.renderCount + 1 } else st
        let st := if deps.showToastPresent then
          { st with toasts := st.toasts ++
            [if r.2 = 0 then ("Preset loaded (no matching joints)", some 2000)
             else ("Preset loaded (" ++ toString r.2 ++ " joints)", none)] }
          else st
        (st, none, r.2)

/-! ## `importPosePack` (lines 176–213)

A file handle is its name plus the outcome of the `await file.text()` /
`JSON.parse(text)` prefix of the per-file pipeline: the read may reject, the
parse may throw, or a structured value emerges.  (`file.text` and
`JSON.parse` are platform built-ins, not repository code; only their outcome
classes matter to the module.)  The injected `applyPose` dependency is
modelled as the module's own `applyPose` closed over `deps.applyDeps`, which
is how the application wires it. -/

inductive FileContent where
  | readErr
  | parseErr
  | parsed (d : JVal)
  deriving DecidableEq, Repr

structure JFile where
  name : String
  content : FileContent
  deriving DecidableEq, Repr

structure ImportDeps where
  applyPresent : Bool
  savePresent : Bool
  renderPresent : Bool
  toastPresent : Bool
  applyDeps : Deps

/-- Candidate test `file?.name?.toLowerCase().endsWith(".json")` (line 183). -/
def isJsonName (name : String) : Bool :=
  jsEndsWith (jsToLower name) ".json"

/-- Display-name derivation `file.name.replace(/\.json$/i, "")` (line 193). -/
def stripJsonSuffix (name : String) : String :=
  if isJsonName name then String.mk (name.data.take (name.data.length - 5))
  else name

/-- Gallery persistence `saveToGallery({ name, withToast: false })` (lines
195–197). -/
def saveStep (deps : ImportDeps) (st : St) (name : String) : St :=
  if deps.savePresent then
    { st with gallerySaves := st.gallerySaves ++ [stripJsonSuffix name] }
  else st

/-- The `try`/`catch` body for one candidate file (lines 185–202): returns
whether `imported++` was reached, and the state (a caught error leaves prior
mutations in place and logs one `console.warn`). -/
def processFile (deps : ImportDeps) (st : St) (f : JFile) : Bool × St :=
  match f.content with
  | .readErr => (false, { st with warnings := st.warnings + 1 })
  | .parseErr => (false, { st with warnings := st.warnings + 1 })
  | .parsed data =>
    if deps.applyPresent then
      match applyPose data deps.applyDeps st with
      | (st', some _) => (false, { st' with warnings := st'.warnings + 1 })
      | (st', none) => (true, saveStep deps st' f.name)
    else (true, saveStep deps st f.name)

/-- One iteration of the `for (const file of files)` loop (lines 182–203),
threading the `imported` counter. -/
def importStep (deps : ImportDeps) (acc : Nat × St) (f : JFile) : Nat × St :=
  if !isJsonName f.name then acc
  else
    let r := processFile deps acc.2 f
    (if r.1 then acc.1 + 1 else acc.1, r.2)

/-- The summary toast text (lines 208–209). -/
def summaryMsg (n : Nat) : String :=
  if 0 < n then
    "Imported " ++ toString n ++ " pose" ++ (if 1 < n then "s" else "")
  else "No valid poses imported"

/-- The batch importer `importPosePack(files, deps)` (lines 176–213).  The early
`if (!files || !files.length) return;` yields `undefined` — modelled as a
`none` count — and skips the render hook and the summary toast. -/
def importPosePack (files : List JFile) (deps : ImportDeps) (st : St) :
    Option Nat × St :=
  if files.isEmpty then (none, st)
  else
    let r := files.foldl (importStep deps) (0, st)
    let st := if deps.renderPresent then
      { r.2 with galleryRenders := r.2.galleryRenders + 1 } else r.2
    let st := if deps.toastPresent then
      { st with toasts := st.toasts ++ [(summaryMsg r.1, none)] } else st
    (some r.1, st)

/-! ## Success predicates for the import count

Whether `applyPose` raises is determined by the document and the supplied
collaborators alone, never by the world's current contents; that makes the
per-file success of the import loop a pure predicate of the file. -/

/-- The document is a non-null structured value (truthy and
`typeof === "object"`). -/
def docStructured (data : JVal) : Bool :=
  !jsFalsy data && jsTypeofObject data

/-- A world with joint and prop collections was supplied. -/
def worldOk (deps : Deps) : Bool :=
  deps.worldPresent && deps.jointsPresent && deps.propsPresent

/-- The three validation checks of `applyPose` as a pure predicate. -/
def applyOk (data : JVal) (deps : Deps) : Bool :=
  !(jsFalsy data || !jsTypeofObject data)
    && (deps.worldPresent && deps.jointsPresent && deps.propsPresent)
    && deps.scenePresent

/-- A file both survives the `.json` filter and completes its `try` body. -/
def importOk (deps : ImportDeps) (f : JFile) : Bool :=
  isJsonName f.name &&
    match f.content with
    | .parsed d => !deps.applyPresent || applyOk d deps.applyDeps
    | _ => false

/-- A file enters the `try` body but fails it (and is warned about). -/
def importFails (deps : ImportDeps) (f : JFile) : Bool :=
  isJsonName f.name &&
    match f.content with
    | .parsed d => deps.applyPresent && !applyOk d deps.applyDeps
    | _ => true

/-! ## The spec's wording of the type-inference heuristic (for C4)

`specInferFirstMatch` renders the claim's words: ordered substring matching
of the lowercased name against a fixed keyword list, first match wins,
default `"cube"`.  `claimKeywords` is the list exactly as the claim spells
it (with `cylinder` as the third keyword); `amendedKeywords` replaces that
entry by the substring the source actually tests, `"cyl"`. -/

def specInferFirstMatch (name : String) : List (List String × String) → String
  | [] => "cube"
  | (kws, res) :: rest =>
    if kws.any (fun k => jsIncludes (jsToLower name) k) then res
    else specInferFirstMatch name rest

def claimKeywords : List (List String × String) :=
  [(["sphere"], "sphere"), (["cube", "box"], "cube"),
   (["cylinder"], "cylinder"), (["cone"], "cone"), (["torus"], "torus"),
   (["ring"], "ring"), (["disc", "circle"], "disc"), (["plane"], "plane"),
   (["icosa"], "icosa"), (["octa"], "octa"), (["dodeca"], "dodeca"),
   (["tetra"], "tetra")]

def amendedKeywords : List (List String × String) :=
  [(["sphere"], "sphere"), (["cube", "box"], "cube"),
   (["cyl"], "cylinder"), (["cone"], "cone"), (["torus"], "torus"),
   (["ring"], "ring"), (["disc", "circle"], "disc"), (["plane"], "plane"),
   (["icosa"], "icosa"), (["octa"], "octa"), (["dodeca"], "dodeca"),
   (["tetra"], "tetra")]

/-! ## Concrete fixtures for witnesses and counterexamples -/

/-- A well-behaved factory output: the fresh prop `addProp(t)` appends
before the descriptor's fields are written onto it. -/
def mkFreshProp (t : String) : PropObj :=
  { name := "new_" ++ t, position := [0, 0, 0], quaternion := [0, 0, 0, 1],
    scale := [1, 1, 1], userDataType := none, userDataIsProp := false }

/-- Every collaborator supplied; the factory appends exactly one prop. -/
def depsFull : Deps :=
  { worldPresent := true, jointsPresent := true, propsPresent := true,
    scenePresent := true, poseNotesPresent := true, addPropPresent := true,
    showToastPresent := true, updateOutlinePresent := true,
    forceRenderPresent := true, resetPresent := true,
    factory := fun t => [mkFreshProp t] }

/-- A factory that appends a prop for `"cube"` but nothing for any other
type key. -/
def depsPartialFactory : Deps :=
  { depsFull with factory := fun t => if t = "cube" then [mkFreshProp t] else [] }

/-- Variant of `depsFull` without the toast hook (how the import pipeline is wired:
per-item notifications suppressed). -/
def depsToastless : Deps :=
  { depsFull with showToastPresent := false }

def stEmpty : St :=
  { joints := [], props := [], sceneRemoved := [], notes := "", toasts := [],
    outlineCount := 0, renderCount := 0, warnings := 0, galleryRenders := 0,
    gallerySaves := [] }

/-- A fresh world: one joint named `"head"` at the identity orientation,
no props. -/
def stFresh : St :=
  { stEmpty with joints := [{ name := "head", quaternion := [0, 0, 0, 1] }] }

/-- A live prop whose stored type tag carries an uppercase letter. -/
def origSphereProp : PropObj :=
  { name := "", position := [1, 2, 3], quaternion := [0, 1, 0, 0],
    scale := [2, 2, 2], userDataType := some "Sphere", userDataIsProp := true }

/-- The same prop with the type tag already trimmed and lowercase. -/
def normSphereProp : PropObj :=
  { origSphereProp with userDataType := some "sphere" }

/-- A posed world: joint `"head"` rotated, one `"Sphere"`-tagged prop. -/
def stOrigTagged : St :=
  { stEmpty with joints := [{ name := "head", quaternion := [1, 0, 0, 0] }],
                 props := [origSphereProp] }

/-- A posed world whose prop type tag is already normalized. -/
def stOrigNorm : St :=
  { stOrigTagged with props := [normSphereProp] }

/-- A world with three joints, all posed away from the identity. -/
def stThreeJoints : St :=
  { stEmpty with joints :=
      [{ name := "head", quaternion := [7, 7, 7, 7] },
       { name := "tail", quaternion := [8, 8, 8, 8] },
       { name := "spine", quaternion := [9, 9, 9, 9] }] }

/-- Import collaborators, all present, with per-item toasts suppressed in
the wired `applyPose`. -/
def idepsFull : ImportDeps :=
  { applyPresent := true, savePresent := true, renderPresent := true,
    toastPresent := true, applyDeps := depsToastless }

/-- A structured document carrying none of the recognized fields. -/
def emptyObjDoc : ObjDoc :=
  { joints := .notMap, props := .notArray, notes := .notStr, version := none,
    savedAt := none }

def fileOkA : JFile := { name := "a.json", content := .parsed (.vobj emptyObjDoc) }

def fileBadB : JFile := { name := "b.json", content := .parseErr }

def fileOkC : JFile := { name := "c.JSON", content := .parsed (.vobj emptyObjDoc) }

/-- Entries of the mixed joints document, for direct instantiation. -/
def mixEntries : List (String × JEntry) :=
  [("head", .qarr [5, 0, 0, 1]), ("tail", .qarr [1, 2, 3]),
   ("weird", .nonArray), ("ghost", .qarr [1, 2, 3, 4])]

/-- A joints document none of whose names matches a live joint (as an
`ObjDoc`). -/
def noneDoc : ObjDoc :=
  { joints := .jmap [("zzz", .qarr [1, 2, 3, 4])]
    props := .notArray, notes := .notStr, version := none, savedAt := none }

/-- A joints document with a good entry for `"head"`, a 3-element entry
for `"tail"`, a non-array entry, and an entry matching no live joint. -/
def mixDoc : ObjDoc :=
  { joints := .jmap mixEntries
    props := .notArray, notes := .notStr, version := none, savedAt := none }

/-- The descriptor list of the two-prop document: a cube at the origin,
then a sphere at `(9, 9, 9)`. -/
def twoDescs : List PropDesc :=
  [{ type := some "cube", name := "", position := some [0, 0, 0],
     quaternion := none, scale := none },
   { type := some "sphere", name := "", position := some [9, 9, 9],
     quaternion := none, scale := none }]

/-- The two-prop document as an `ObjDoc`. -/
def twoDescsDoc : ObjDoc :=
  { joints := .notMap, props := .parr twoDescs, notes := .notStr,
    version := none, savedAt := none }

/-! ## Helper lemmas -/

theorem objLookup_cons {α : Type} (k0 k : String) (v0 : α)
    (rest : List (String × α)) :
    objLookup ((k0, v0) :: rest) k
      = if k0 = k then some v0 else objLookup rest k := rfl

theorem objSet_cons {α : Type} (k0 k : String) (v0 v : α)
    (rest : List (String × α)) :
    objSet ((k0, v0) :: rest) k v
      = if k0 = k then (k0, v) :: rest else (k0, v0) :: objSet rest k v := rfl

set_option maxHeartbeats 1000000 in
theorem inferTypeFromLegacyName_ne_nil (n : String) :
    inferTypeFromLegacyName n ≠ "" := by
  unfold inferTypeFromLegacyName
  split_ifs <;> decide

theorem serPropType_ne_nil (p : PropObj) : serPropType p ≠ "" := by
  unfold serPropType
  cases h : p.userDataType with
  | none => exact inferTypeFromLegacyName_ne_nil _
  | some s =>
    by_cases hs : s = ""
    · simp only [hs, if_pos rfl]
      exact inferTypeFromLegacyName_ne_nil _
    · simpa only [if_neg hs] using hs

theorem objLookup_objSet {α : Type} (m : List (String × α)) (k k' : String)
    (v : α) :
    objLookup (objSet m k v) k' = if k = k' then some v else objLookup m k' := by
  induction m with
  | nil => rfl
  | cons kv rest ih =>
    obtain ⟨k0, v0⟩ := kv
    rw [objSet_cons]
    by_cases hk : k0 = k
    · subst hk
      rw [if_pos rfl, objLookup_cons, objLookup_cons]
      by_cases h2 : k0 = k'
      · rw [if_pos h2, if_pos h2]
      · rw [if_neg h2, if_neg h2, if_neg h2]
    · rw [if_neg hk, objLookup_cons, ih, objLookup_cons]
      by_cases h2 : k0 = k'
      · subst h2
        have hkk : ¬k = k0 := fun e => hk e.symm
        rw [if_pos rfl, if_neg hkk, if_pos rfl]
      · rw [if_neg h2, if_neg h2]


theorem objLookup_foldl_objSet_of_notMem (l : List Joint)
    (m0 : List (String × JEntry)) (k : String)
    (h : ∀ j ∈ l, j.name ≠ k) :
    objLookup (l.foldl (fun m j => objSet m j.name (.qarr j.quaternion)) m0) k
      = objLookup m0 k := by
  induction l generalizing m0 with
  | nil => rfl
  | cons a rest ih =>
    rw [List.foldl_cons, ih _ (fun j hj => h j (List.mem_cons_of_mem _ hj)),
      objLookup_objSet, if_neg (h a (List.mem_cons_self _ _))]

theorem objLookup_foldl_objSet_of_mem (l : List Joint)
    (m0 : List (String × JEntry))
    (hnd : (l.map Joint.name).Nodup) (j : Joint) (hj : j ∈ l) :
    objLookup (l.foldl (fun m j' => objSet m j'.name (.qarr j'.quaternion)) m0)
      j.name = some (.qarr j.quaternion) := by
  induction l generalizing m0 with
  | nil => cases hj
  | cons a rest ih =>
    rw [List.map_cons, List.nodup_cons] at hnd
    rcases List.mem_cons.mp hj with h | h
    · subst h
      rw [List.foldl_cons, objLookup_foldl_objSet_of_notMem]
      · rw [objLookup_objSet, if_pos rfl]
      · intro j' hj' e
        exact hnd.1 (e ▸ List.mem_map_of_mem Joint.name hj')
    · rw [List.foldl_cons]
      exact ih _ hnd.2 h

theorem buildJointsMap_lookup (l : List Joint)
    (hnd : (l.map Joint.name).Nodup) (j : Joint) (hj : j ∈ l) :
    objLookup (buildJointsMap l) j.name = some (.qarr j.quaternion) :=
  objLookup_foldl_objSet_of_mem l [] hnd j hj

theorem rebuildStep_factory_one (deps : Deps) (mk : String → PropObj)
    (hp : deps.addPropPresent = true) (hf : ∀ t, deps.factory t = [mk t])
    (acc : List PropObj) (pd : PropDesc) :
    rebuildStep deps acc pd
      = acc ++ [applyDesc (descType pd) pd (mk (descType pd))] := by
  simp [rebuildStep, hp, hf, List.getLast?_concat, List.dropLast_concat]

theorem foldl_rebuildStep_factory_one (deps : Deps) (mk : String → PropObj)
    (hp : deps.addPropPresent = true) (hf : ∀ t, deps.factory t = [mk t])
    (descs : List PropDesc) :
    ∀ acc : List PropObj,
      descs.foldl (fun a pd => rebuildStep deps a pd) acc
        = acc ++ descs.map (fun pd => applyDesc (descType pd) pd (mk (descType pd))) := by
  induction descs with
  | nil => intro acc; simp
  | cons pd rest ih =>
    intro acc
    rw [List.foldl_cons, rebuildStep_factory_one deps mk hp hf, ih, List.map_cons]
    simp

theorem foldl_rebuildStep_factory_none (deps : Deps)
    (hf : ∀ t, deps.factory t = []) (descs : List PropDesc) :
    descs.foldl (fun a pd => rebuildStep deps a pd) [] = [] := by
  induction descs with
  | nil => rfl
  | cons pd rest ih =>
    have h0 : rebuildStep deps [] pd = [] := by
      unfold rebuildStep
      cases hap : deps.addPropPresent <;> simp [hf]
    rw [List.foldl_cons, h0, ih]

theorem foldl_jointsOnlyStep (m : List (String × JEntry)) (l : List Joint) :
    ∀ acc : List Joint × Nat,
      l.foldl (jointsOnlyStep m) acc
        = (acc.1 ++ l.map (jointApplyRule m),
           acc.2 + (l.filter (fun j => jointMatched m j)).length) := by
  induction l with
  | nil => intro acc; simp
  | cons j rest ih =>
    intro acc
    rw [List.foldl_cons, ih]
    cases hl : objLookup m j.name with
    | none =>
      simp [jointsOnlyStep, jointApplyRule, jointMatched, hl, List.filter_cons]
    | some e =>
      cases e with
      | nonArray =>
        simp [jointsOnlyStep, jointApplyRule, jointMatched, hl, List.filter_cons]
      | qarr q =>
        by_cases h4 : q.length = 4
        · simp [jointsOnlyStep, jointApplyRule, jointMatched, hl, h4,
            List.filter_cons]
          omega
        · simp [jointsOnlyStep, jointApplyRule, jointMatched, hl, h4,
            List.filter_cons]


theorem applyPoseBody_eq (data : JVal) (deps : Deps) (st : St) :
    applyPoseBody data deps st =
      { joints :=
          match data.jointsField with
          | .jmap m => st.joints.map (jointApplyRule m)
          | .notMap => st.joints
        props :=
          match data.propsField with
          | .parr descs => descs.foldl (fun a pd => rebuildStep deps a pd) []
          | .notArray => st.props
        sceneRemoved :=
          match data.propsField with
          | .parr _ => st.sceneRemoved ++ st.props
          | .notArray => st.sceneRemoved
        notes :=
          match data.notesField with
          | .nstr s => if deps.poseNotesPresent then s else st.notes
          | .notStr => st.notes
        toasts := st.toasts ++
          (if deps.showToastPresent then [("Pose loaded", none)] else [])
        outlineCount := st.outlineCount +
          (if deps.updateOutlinePresent then 1 else 0)
        renderCount := st.renderCount +
          (if deps.forceRenderPresent then 1 else 0)
        warnings := st.warnings
        galleryRenders := st.galleryRenders
        gallerySaves := st.gallerySaves } := by
  unfold applyPoseBody hooksStage notesStage propsStage jointsStage
  cases hj : data.jointsField <;> cases hp : data.propsField <;>
    cases hn : data.notesField <;> split_ifs <;> simp

theorem applyPose_of_ok (data : JVal) (deps : Deps) (st : St)
    (h : applyOk data deps = true) :
    applyPose data deps st = (applyPoseBody data deps st, none) := by
  unfold applyPose
  unfold applyOk at h
  split_ifs with h1 h2 h3
  · simp [h1] at h
  · rw [Bool.not_eq_true'] at h2
    simp [h2] at h
  · rw [Bool.not_eq_true'] at h3
    simp [h3] at h
  · rfl

theorem applyPose_snd_none_iff (data : JVal) (deps : Deps) (st : St) :
    (applyPose data deps st).2 = none ↔ applyOk data deps = true := by
  unfold applyPose applyOk
  split_ifs with h1 h2 h3
  · simp [h1]
  · rw [Bool.not_eq_true'] at h2
    simp [h2]
  · rw [Bool.not_eq_true'] at h3
    simp [h3]
  · simp_all


theorem applyPose_fst_warnings (data : JVal) (deps : Deps) (st : St) :
    (applyPose data deps st).1.warnings = st.warnings := by
  unfold applyPose
  split_ifs <;> simp [applyPoseBody_eq]

theorem applyPose_fst_galleryRenders (data : JVal) (deps : Deps) (st : St) :
    (applyPose data deps st).1.galleryRenders = st.galleryRenders := by
  unfold applyPose
  split_ifs <;> simp [applyPoseBody_eq]

theorem applyPose_fst_gallerySaves (data : JVal) (deps : Deps) (st : St) :
    (applyPose data deps st).1.gallerySaves = st.gallerySaves := by
  unfold applyPose
  split_ifs <;> simp [applyPoseBody_eq]

theorem applyPose_fst_toasts_of_quiet (data : JVal) (deps : Deps) (st : St)
    (h : deps.showToastPresent = false) :
    (applyPose data deps st).1.toasts = st.toasts := by
  unfold applyPose
  split_ifs <;> simp [applyPoseBody_eq, h]

theorem saveStep_warnings (deps : ImportDeps) (st : St) (n : String) :
    (saveStep deps st n).warnings = st.warnings := by
  unfold saveStep
  split_ifs <;> rfl

theorem saveStep_galleryRenders (deps : ImportDeps) (st : St) (n : String) :
    (saveStep deps st n).galleryRenders = st.galleryRenders := by
  unfold saveStep
  split_ifs <;> rfl

theorem saveStep_toasts (deps : ImportDeps) (st : St) (n : String) :
    (saveStep deps st n).toasts = st.toasts := by
  unfold saveStep
  split_ifs <;> rfl

theorem processFile_fst (deps : ImportDeps) (st : St) (f : JFile) :
    (processFile deps st f).1
      = (match f.content with
         | .parsed d => !deps.applyPresent || applyOk d deps.applyDeps
         | _ => false) := by
  cases f with
  | mk name content =>
    cases content with
    | readErr => rfl
    | parseErr => rfl
    | parsed d =>
      unfold processFile
      cases hap : deps.applyPresent with
      | false => simp
      | true =>
        have hiff := applyPose_snd_none_iff d deps.applyDeps st
        cases he : applyPose d deps.applyDeps st with
        | mk st' err =>
          rw [he] at hiff
          cases err with
          | none => simp_all
          | some e => simp_all

theorem processFile_snd_warnings (deps : ImportDeps) (st : St) (f : JFile) :
    (processFile deps st f).2.warnings
      = st.warnings + (if (processFile deps st f).1 then 0 else 1) := by
  cases f with
  | mk name content =>
    cases content with
    | readErr => rfl
    | parseErr => rfl
    | parsed d =>
      unfold processFile
      cases hap : deps.applyPresent with
      | false => simp [saveStep_warnings]
      | true =>
        have hw := applyPose_fst_warnings d deps.applyDeps st
        cases he : applyPose d deps.applyDeps st with
        | mk st' err =>
          cases err with
          | none =>
            simp only [he, saveStep_warnings]
            rw [he] at hw
            simpa [saveStep_warnings] using hw
          | some e =>
            simp only [he]
            rw [he] at hw
            simpa using hw

theorem processFile_snd_galleryRenders (deps : ImportDeps) (st : St) (f : JFile) :
    (processFile deps st f).2.galleryRenders = st.galleryRenders := by
  cases f with
  | mk name content =>
    cases content with
    | readErr => rfl
    | parseErr => rfl
    | parsed d =>
      unfold processFile
      cases hap : deps.applyPresent with
      | false => simp [saveStep_galleryRenders]
      | true =>
        have hg := applyPose_fst_galleryRenders d deps.applyDeps st
        cases he : applyPose d deps.applyDeps st with
        | mk st' err =>
          cases err with
          | none =>
            simp only [he, saveStep_galleryRenders]
            rw [he] at hg
            simpa [saveStep_galleryRenders] using hg
          | some e =>
            simp only [he]
            rw [he] at hg
            simpa using hg

theorem processFile_snd_toasts (deps : ImportDeps) (st : St) (f : JFile)
    (h : deps.applyDeps.showToastPresent = false) :
    (processFile deps st f).2.toasts = st.toasts := by
  cases f with
  | mk name content =>
    cases content with
    | readErr => rfl
    | parseErr => rfl
    | parsed d =>
      unfold processFile
      cases hap : deps.applyPresent with
      | false => simp [saveStep_toasts]
      | true =>
        have ht := applyPose_fst_toasts_of_quiet d deps.applyDeps st h
        cases he : applyPose d deps.applyDeps st with
        | mk st' err =>
          cases err with
          | none =>
            simp only [he, saveStep_toasts]
            rw [he] at ht
            simpa [saveStep_toasts] using ht
          | some e =>
            simp only [he]
            rw [he] at ht
            simpa using ht



theorem foldl_importStep_fst (deps : ImportDeps) (files : List JFile) :
    ∀ acc : Nat × St,
      (files.foldl (importStep deps) acc).1
        = acc.1 + (files.filter (fun f => importOk deps f)).length := by
  induction files with
  | nil => intro acc; simp
  | cons f rest ih =>
    intro acc
    rw [List.foldl_cons, ih]
    by_cases hjson : isJsonName f.name = true
    · have hpf := processFile_fst deps acc.2 f
      by_cases hb : (match f.content with
          | .parsed d => !deps.applyPresent || applyOk d deps.applyDeps
          | _ => false) = true
      · simp [importStep, importOk, hjson, hpf, hb, List.filter_cons]
        omega
      · simp only [Bool.not_eq_true] at hb
        simp [importStep, importOk, hjson, hpf, hb, List.filter_cons]
    · simp only [Bool.not_eq_true] at hjson
      simp [importStep, importOk, hjson, List.filter_cons]

theorem importFails_eq (deps : ImportDeps) (f : JFile) :
    importFails deps f
      = (isJsonName f.name &&
          !(match f.content with
            | .parsed d => !deps.applyPresent || applyOk d deps.applyDeps
            | _ => false)) := by
  cases f with
  | mk name content =>
    cases content with
    | readErr => rfl
    | parseErr => rfl
    | parsed d =>
      cases hap : deps.applyPresent <;>
        cases hok : applyOk d deps.applyDeps <;>
          simp [importFails, hap, hok]

theorem foldl_importStep_warnings (deps : ImportDeps) (files : List JFile) :
    ∀ acc : Nat × St,
      (files.foldl (importStep deps) acc).2.warnings
        = acc.2.warnings + (files.filter (fun f => importFails deps f)).length := by
  induction files with
  | nil => intro acc; simp
  | cons f rest ih =>
    intro acc
    rw [List.foldl_cons, ih]
    by_cases hjson : isJsonName f.name = true
    · have hpf := processFile_fst deps acc.2 f
      have hpw := processFile_snd_warnings deps acc.2 f
      by_cases hb : (match f.content with
          | .parsed d => !deps.applyPresent || applyOk d deps.applyDeps
          | _ => false) = true
      · simp [importStep, importFails_eq, hjson, hpw, hpf, hb, List.filter_cons]
      · simp only [Bool.not_eq_true] at hb
        simp [importStep, importFails_eq, hjson, hpw, hpf, hb, List.filter_cons]
        omega
    · simp only [Bool.not_eq_true] at hjson
      simp [importStep, importFails_eq, hjson, List.filter_cons]

theorem foldl_importStep_galleryRenders (deps : ImportDeps) (files : List JFile) :
    ∀ acc : Nat × St,
      (files.foldl (importStep deps) acc).2.galleryRenders
        = acc.2.galleryRenders := by
  induction files with
  | nil => intro acc; rfl
  | cons f rest ih =>
    intro acc
    rw [List.foldl_cons, ih]
    by_cases hjson : isJsonName f.name = true
    · simp [importStep, hjson, processFile_snd_galleryRenders]
    · simp only [Bool.not_eq_true] at hjson
      simp [importStep, hjson]

theorem foldl_importStep_toasts (deps : ImportDeps) (files : List JFile)
    (hq : deps.applyDeps.showToastPresent = false) :
    ∀ acc : Nat × St,
      (files.foldl (importStep deps) acc).2.toasts = acc.2.toasts := by
  induction files with
  | nil => intro acc; rfl
  | cons f rest ih =>
    intro acc
    rw [List.foldl_cons, ih]
    by_cases hjson : isJsonName f.name = true
    · simp [importStep, hjson, processFile_snd_toasts _ _ _ hq]
    · simp only [Bool.not_eq_true] at hjson
      simp [importStep, hjson]


/-! ## Claim theorems -/

/-- C4 (counterexample).  The claim's keyword list names `cylinder` as
the third keyword, but the source tests the substring `"cyl"` (line 26):
on the prop name `"my_cyl"` the code infers `"cylinder"` while ordered
substring matching against the claim's list yields the default `"cube"`. -/
theorem c4_counterexample_cyl :
    inferTypeFromLegacyName "my_cyl" = "cylinder"
    ∧ specInferFirstMatch "my_cyl" claimKeywords = "cube"
    ∧ inferTypeFromLegacyName "my_cyl"
        ≠ specInferFirstMatch "my_cyl" claimKeywords := by
  refine ⟨by decide, by decide, by decide⟩

/-- C4 (amended).  Prop type inference is ordered substring matching of
the lowercased name against the keyword list sphere, cube/box, **cyl**,
cone, torus, ring, disc/circle, plane, icosa, octa, dodeca, tetra — first
match wins, `"cube"` if none match (the `cyl` keyword reports type
`"cylinder"`); in particular `"MySphere_02"` infers `"sphere"` and
`"weird_blob"` infers `"cube"`. -/
theorem c4_infer_first_match_amended :
    (∀ name, inferTypeFromLegacyName name
        = specInferFirstMatch name amendedKeywords)
    ∧ inferTypeFromLegacyName "MySphere_02" = "sphere"
    ∧ inferTypeFromLegacyName "weird_blob" = "cube" := by
  refine ⟨fun name => ?_, by decide, by decide⟩
  simp only [amendedKeywords, specInferFirstMatch, List.any_cons, List.any_nil,
    Bool.or_false, inferTypeFromLegacyName]

/-- C9.  `applyPoseJointsOnly` never touches the prop collection, the
scene, the notes sink, or the gallery: on every input these state components
come back exactly as they went in. -/
theorem c9_joints_only_frame (data : JVal) (deps : Deps) (st : St) :
    (applyPoseJointsOnly data deps st).1.props = st.props
    ∧ (applyPoseJointsOnly data deps st).1.sceneRemoved = st.sceneRemoved
    ∧ (applyPoseJointsOnly data deps st).1.notes = st.notes
    ∧ (applyPoseJointsOnly data deps st).1.gallerySaves = st.gallerySaves := by
  unfold applyPoseJointsOnly
  cases hm : data.jointsField <;> split_ifs <;> exact ⟨rfl, rfl, rfl, rfl⟩

/-- C10.  Whenever `applyPose` or `applyPoseJointsOnly` throws one of
its validation errors, the state (world, scene log, notes, and every hook
log) is exactly the input state: all checks precede the first mutation. -/
theorem c10_error_leaves_state (data : JVal) (deps : Deps) (st : St) :
    (∀ e, (applyPose data deps st).2 = some e → (applyPose data deps st).1 = st)
    ∧ (∀ e, (applyPoseJointsOnly data deps st).2.1 = some e
        → (applyPoseJointsOnly data deps st).1 = st) := by
  constructor
  · intro e he
    unfold applyPose at he ⊢
    split_ifs at he ⊢ <;> rfl
  · intro e he
    unfold applyPoseJointsOnly at he ⊢
    cases hm : data.jointsField <;> rw [hm] at he <;> split_ifs at he ⊢ <;> rfl

/-- C10 (witness): at the concrete invalid document `null`, both
appliers throw and leave the state untouched. -/
theorem c10_error_leaves_state_witness :
    (applyPose .vnull depsFull stOrigTagged).1 = stOrigTagged
    ∧ (applyPoseJointsOnly .vnull depsFull stOrigTagged).1 = stOrigTagged :=
  ⟨(c10_error_leaves_state .vnull depsFull stOrigTagged).1 .invalidPose rfl,
   (c10_error_leaves_state .vnull depsFull stOrigTagged).2 .invalidPresetDoc rfl⟩


/-- C8.  The single-document appliers are fail-fast with exactly the
specified errors: full apply throws "Invalid pose JSON" precisely when the
document is not a truthy structured value, "missing world" precisely when
the document is fine but no world with joint and prop collections was
supplied, "missing scene" precisely when document and world are fine but no
scene sink was supplied; the joints-only applier throws "Pose missing
joints" precisely when the (structured) document's `joints` is not a
mapping.  (`c10_error_leaves_state` adds that every such error is raised
before the first mutation.) -/
theorem c8_fail_fast_errors (data : JVal) (deps : Deps) (st : St) :
    ((applyPose data deps st).2 = some .invalidPose
      ↔ docStructured data = false)
    ∧ ((applyPose data deps st).2 = some .missingWorld
      ↔ (docStructured data = true ∧ worldOk deps = false))
    ∧ ((applyPose data deps st).2 = some .missingScene
      ↔ (docStructured data = true ∧ worldOk deps = true
          ∧ deps.scenePresent = false))
    ∧ ((applyPoseJointsOnly data deps st).2.1 = some .missingJoints
      ↔ (docStructured data = true ∧ data.jointsField = .notMap)) := by
  refine ⟨?_, ?_, ?_, ?_⟩
  · unfold applyPose docStructured
    cases hf : jsFalsy data <;> cases ht : jsTypeofObject data <;>
      simp [hf, ht] <;> split_ifs <;> simp
  · unfold applyPose docStructured worldOk
    cases hf : jsFalsy data <;> cases ht : jsTypeofObject data <;>
      cases hw : deps.worldPresent <;> cases hj : deps.jointsPresent <;>
        cases hp : deps.propsPresent <;> cases hs : deps.scenePresent <;>
          simp [hf, ht, hw, hj, hp, hs]
  · unfold applyPose docStructured worldOk
    cases hf : jsFalsy data <;> cases ht : jsTypeofObject data <;>
      cases hw : deps.worldPresent <;> cases hj : deps.jointsPresent <;>
        cases hp : deps.propsPresent <;> cases hs : deps.scenePresent <;>
          simp [hf, ht, hw, hj, hp, hs]
  · unfold applyPoseJointsOnly docStructured
    cases hf : jsFalsy data <;> cases ht : jsTypeofObject data <;>
      cases hm : data.jointsField <;>
        cases hw : deps.worldPresent <;> cases hj : deps.jointsPresent <;>
          simp [hf, ht, hm, hw, hj]


/-- C2.  Full apply is a partial joint overwrite: under a valid world
and scene, apply succeeds, keeps the joint count, and — when
`document.joints` is a mapping — replaces exactly the orientations of
joints whose name maps to a 4-element array, leaving joints with absent or
wrong-length entries untouched; when `document.joints` is not a mapping,
every joint is untouched. -/
theorem c2_partial_joint_overwrite (o : ObjDoc) (deps : Deps) (st : St)
    (hw : worldOk deps = true) (hs : deps.scenePresent = true) :
    (applyPose (.vobj o) deps st).2 = none
    ∧ (applyPose (.vobj o) deps st).1.joints.length = st.joints.length
    ∧ (∀ m, o.joints = .jmap m →
        ∀ (i : Nat) (hi : i < st.joints.length)
          (hi' : i < (applyPose (.vobj o) deps st).1.joints.length),
          (∀ q, objLookup m (st.joints.get ⟨i, hi⟩).name = some (.qarr q) →
              q.length = 4 →
              ((applyPose (.vobj o) deps st).1.joints.get ⟨i, hi'⟩).quaternion
                = q)
          ∧ (objLookup m (st.joints.get ⟨i, hi⟩).name = none →
              (applyPose (.vobj o) deps st).1.joints.get ⟨i, hi'⟩
                = st.joints.get ⟨i, hi⟩)
          ∧ (∀ q, objLookup m (st.joints.get ⟨i, hi⟩).name = some (.qarr q) →
              q.length ≠ 4 →
              (applyPose (.vobj o) deps st).1.joints.get ⟨i, hi'⟩
                = st.joints.get ⟨i, hi⟩))
    ∧ (o.joints = .notMap →
        (applyPose (.vobj o) deps st).1.joints = st.joints) := by
  have hok : applyOk (.vobj o) deps = true := by
    have hw' := hw
    unfold worldOk at hw'
    simp [applyOk, jsFalsy, jsTypeofObject, hs, hw']
  have hE := applyPose_of_ok (.vobj o) deps st hok
  rw [hE, applyPoseBody_eq]
  simp only [JVal.jointsField]
  cases ho : o.joints with
  | notMap =>
    refine ⟨trivial, by simp, ?_, fun _ => rfl⟩
    intro m hm
    exact absurd hm (by simp)
  | jmap m0 =>
    refine ⟨trivial, by simp, ?_, ?_⟩
    · intro m hm i hi hi'
      injection hm with hmm
      subst hmm
      refine ⟨?_, ?_, ?_⟩
      · intro q hq h4
        simp only [List.get_eq_getElem] at hq
        simp [List.get_eq_getElem, List.getElem_map, jointApplyRule, hq, h4]
      · intro hnone
        simp only [List.get_eq_getElem] at hnone
        simp [List.get_eq_getElem, List.getElem_map, jointApplyRule, hnone]
      · intro q hq h4
        simp only [List.get_eq_getElem] at hq
        simp [List.get_eq_getElem, List.getElem_map, jointApplyRule, hq, h4]
    · intro hcontra
      exact absurd hcontra (by simp)

/-- C2 (witness): on a three-joint world and a document carrying a good
entry for `"head"`, a 3-element entry for `"tail"`, and nothing for
`"spine"`, apply succeeds, `"head"` is overwritten, and the other two keep
their orientations. -/
theorem c2_partial_joint_overwrite_witness :
    (applyPose (.vobj mixDoc) depsFull stThreeJoints).2 = none
    ∧ ((applyPose (.vobj mixDoc) depsFull stThreeJoints).1.joints.get
        ⟨0, by decide⟩).quaternion = [5, 0, 0, 1]
    ∧ (applyPose (.vobj mixDoc) depsFull stThreeJoints).1.joints.get
        ⟨1, by decide⟩ = stThreeJoints.joints.get ⟨1, by decide⟩
    ∧ (applyPose (.vobj mixDoc) depsFull stThreeJoints).1.joints.get
        ⟨2, by decide⟩ = stThreeJoints.joints.get ⟨2, by decide⟩ := by
  have h := c2_partial_joint_overwrite mixDoc depsFull stThreeJoints
    (by decide) (by decide)
  refine ⟨h.1, ?_, ?_, ?_⟩
  · exact (h.2.2.1 _ rfl 0 (by decide) (by decide)).1 [5, 0, 0, 1]
      (by decide) (by decide)
  · exact (h.2.2.1 _ rfl 1 (by decide) (by decide)).2.2 [1, 2, 3]
      (by decide) (by decide)
  · exact (h.2.2.1 _ rfl 2 (by decide) (by decide)).2.1 (by decide)


/-- C5.  With the reset hook supplied, `applyPoseJointsOnly` on a
structured document with a joints mapping succeeds, first resets every live
joint to the identity orientation and then applies matching 4-element
entries by exactly the full apply's per-joint rule, returns the number of
matched joints, and — when the toast hook is present — emits the distinct
zero-match notification exactly when that count is zero; a document
matching no live joint yields count 0. -/
theorem c5_joints_only_reset_and_count (o : ObjDoc) (m : List (String × JEntry))
    (deps : Deps) (st : St) (ho : o.joints = .jmap m)
    (hw : deps.worldPresent = true) (hj : deps.jointsPresent = true)
    (hr : deps.resetPresent = true) :
    (applyPoseJointsOnly (.vobj o) deps st).2.1 = none
    ∧ (applyPoseJointsOnly (.vobj o) deps st).1.joints
        = (st.joints.map (fun j => { j with quaternion := idQuat })).map
            (jointApplyRule m)
    ∧ (applyPoseJointsOnly (.vobj o) deps st).2.2
        = (st.joints.filter (fun j => jointMatched m j)).length
    ∧ (deps.showToastPresent = true →
        (applyPoseJointsOnly (.vobj o) deps st).1.toasts
          = st.toasts ++
            [if (applyPoseJointsOnly (.vobj o) deps st).2.2 = 0
             then ("Preset loaded (no matching joints)", some 2000)
             else ("Preset loaded ("
                 ++ toString ((applyPoseJointsOnly (.vobj o) deps st).2.2)
                 ++ " joints)", none)])
    ∧ ((∀ j ∈ st.joints, objLookup m j.name = none) →
        (applyPoseJointsOnly (.vobj o) deps st).2.2 = 0) := by
  have hcnt : ((st.joints.map (fun j => { j with quaternion := idQuat })).filter
      (fun j => jointMatched m j)).length
      = (st.joints.filter (fun j => jointMatched m j)).length := by
    rw [List.filter_map]
    have hfe : ((fun j => jointMatched m j)
        ∘ (fun j : Joint => { j with quaternion := idQuat }))
        = fun j => jointMatched m j := rfl
    rw [List.length_map, hfe]
  have hred : applyPoseJointsOnly (.vobj o) deps st
      = ({ st with
            joints := (st.joints.map (fun j => { j with quaternion := idQuat })).map
              (jointApplyRule m)
            outlineCount := st.outlineCount
              + (if deps.updateOutlinePresent then 1 else 0)
            renderCount := st.renderCount
              + (if deps.forceRenderPresent then 1 else 0)
            toasts := st.toasts ++
              (if deps.showToastPresent then
                [if (st.joints.filter (fun j => jointMatched m j)).length = 0
                 then ("Preset loaded (no matching joints)", some 2000)
                 else ("Preset loaded ("
                     ++ toString (st.joints.filter
                          (fun j => jointMatched m j)).length
                     ++ " joints)", none)] else []) },
          none,
          (st.joints.filter (fun j => jointMatched m j)).length) := by
    unfold applyPoseJointsOnly
    simp only [jsFalsy, jsTypeofObject, JVal.jointsField, ho, hw, hj, hr,
      Bool.and_self, Bool.not_true, Bool.or_false, if_true, if_false,
      Bool.false_or]
    rw [foldl_jointsOnlyStep, hcnt]
    split_ifs <;> simp_all
  rw [hred]
  refine ⟨rfl, rfl, rfl, fun hts => ?_, fun hnone => ?_⟩
  · simp [hts]
  · simp only []
    rw [List.length_eq_zero, List.filter_eq_nil_iff]
    intro j hj'
    simp [jointMatched, hnone j hj']


/-- C5 (witness): on the three-joint world, the mixed document matches
exactly one joint (count 1), and the no-match document returns 0. -/
theorem c5_joints_only_witness :
    (applyPoseJointsOnly (.vobj mixDoc) depsFull stThreeJoints).2.1 = none
    ∧ (applyPoseJointsOnly (.vobj mixDoc) depsFull stThreeJoints).2.2
        = (stThreeJoints.joints.filter
            (fun j => jointMatched mixEntries j)).length
    ∧ (stThreeJoints.joints.filter
        (fun j => jointMatched mixEntries j)).length = 1
    ∧ (applyPoseJointsOnly (.vobj noneDoc) depsFull stThreeJoints).2.2 = 0 := by
  have h1 := c5_joints_only_reset_and_count mixDoc mixEntries depsFull
    stThreeJoints rfl rfl rfl rfl
  have h2 := c5_joints_only_reset_and_count noneDoc
    [("zzz", .qarr [1, 2, 3, 4])] depsFull stThreeJoints rfl rfl rfl rfl
  exact ⟨h1.1, h1.2.2.1, by decide, h2.2.2.2.2 (by decide)⟩


/-- C3 (counterexample).  With a factory that appends nothing for
`"sphere"`, the second descriptor is *not* silently skipped: its fields and
type tag overwrite the prop the first descriptor just created — the single
resulting prop ends at position `(9, 9, 9)` with type `"sphere"`, not at
the cube descriptor's origin. -/
theorem c3_counterexample_no_append_overwrites :
    depsPartialFactory.factory "sphere" = []
    ∧ (applyPose (.vobj twoDescsDoc) depsPartialFactory stFresh).1.props.map
        (fun p => p.userDataType) = [some "sphere"]
    ∧ (applyPose (.vobj twoDescsDoc) depsPartialFactory stFresh).1.props.map
        (fun p => p.position) = [[9, 9, 9]]
    ∧ (applyPose (.vobj twoDescsDoc) depsPartialFactory stFresh).1.props.map
        (fun p => p.position) ≠ [[0, 0, 0]] :=
  ⟨rfl, by decide, by decide, by decide⟩

/-- C3 (amended).  When the document's `props` is an array, full apply
(with valid collaborators and a factory) always performs the destructive
rebuild: it detaches every existing live prop from the scene, empties the
prop collection, and processes descriptors in document order keyed by the
lowercase-trimmed type with fallback inference (`descType`).  With a
factory that appends exactly one prop per call, exactly one prop is
recreated per descriptor; with a factory that never appends, the rebuilt
collection is empty (each descriptor is skipped *only because the
collection stays empty* — see the counterexample for a non-appending
factory meeting a non-empty collection, which overwrites the most recently
appended prop instead of skipping). -/
theorem c3_prop_rebuild_amended (o : ObjDoc) (descs : List PropDesc)
    (deps : Deps) (st : St) (ho : o.props = .parr descs)
    (hw : worldOk deps = true) (hs : deps.scenePresent = true)
    (hap : deps.addPropPresent = true) :
    (applyPose (.vobj o) deps st).2 = none
    ∧ (applyPose (.vobj o) deps st).1.sceneRemoved
        = st.sceneRemoved ++ st.props
    ∧ (∀ mk : String → PropObj, (∀ t, deps.factory t = [mk t]) →
        (applyPose (.vobj o) deps st).1.props
          = descs.map (fun pd => applyDesc (descType pd) pd
              (mk (descType pd))))
    ∧ ((∀ t, deps.factory t = []) →
        (applyPose (.vobj o) deps st).1.props = []) := by
  have hok : applyOk (.vobj o) deps = true := by
    have hw' := hw
    unfold worldOk at hw'
    simp [applyOk, jsFalsy, jsTypeofObject, hs, hw']
  have hE := applyPose_of_ok (.vobj o) deps st hok
  rw [hE, applyPoseBody_eq]
  simp only [JVal.propsField, ho]
  refine ⟨trivial, trivial, ?_, ?_⟩
  · intro mk hf
    simpa using foldl_rebuildStep_factory_one deps mk hap hf descs []
  · intro hf
    exact foldl_rebuildStep_factory_none deps hf descs

/-- C3 (witness): with the well-behaved singleton factory, applying the
two-descriptor document to a fresh world recreates one prop per descriptor
in order. -/
theorem c3_prop_rebuild_witness :
    (applyPose (.vobj twoDescsDoc) depsFull stFresh).2 = none
    ∧ (applyPose (.vobj twoDescsDoc) depsFull stFresh).1.sceneRemoved
        = stFresh.sceneRemoved ++ stFresh.props
    ∧ (applyPose (.vobj twoDescsDoc) depsFull stFresh).1.props
        = twoDescs.map (fun pd => applyDesc (descType pd) pd
            (mkFreshProp (descType pd))) := by
  have h := c3_prop_rebuild_amended twoDescsDoc twoDescs depsFull stFresh rfl
    (by decide) (by decide) (by decide)
  exact ⟨h.1, h.2.1, h.2.2.1 mkFreshProp (fun t => rfl)⟩


theorem roundtrip_joints (l0 l1 : List Joint)
    (hn : l1.map Joint.name = l0.map Joint.name)
    (hnd : (l0.map Joint.name).Nodup)
    (h4 : ∀ j ∈ l0, j.quaternion.length = 4) :
    (l1.map (jointApplyRule (buildJointsMap l0))).map Joint.quaternion
      = l0.map Joint.quaternion := by
  have hlen : l1.length = l0.length := by
    have h := congrArg List.length hn
    simpa using h
  apply List.ext_getElem
  · simpa using hlen
  · intro i hi1 hi2
    have hb1 : i < l1.length := by simpa using hi1
    have hb0 : i < l0.length := by simpa using hi2
    simp only [List.getElem_map]
    have hname : l1[i].name = l0[i].name := by
      have h := congrArg (fun l : List String => l[i]?) hn
      simpa [List.getElem?_map, List.getElem?_eq_getElem, hb1, hb0] using h
    have hmem : l0[i] ∈ l0 := List.getElem_mem hb0
    have hlk : objLookup (buildJointsMap l0) (l0[i]).name
        = some (.qarr (l0[i]).quaternion) :=
      buildJointsMap_lookup l0 hnd _ hmem
    simp [jointApplyRule, hname, hlk, h4 _ hmem]

/-- C1 (counterexample).  A prop whose stored type tag is `"Sphere"`
serializes with that tag, but the apply step lowercase-trims the tag before
storing it on the recreated prop: the round trip yields `some "sphere"`,
not the original `some "Sphere"` — the prop's type is not reproduced
verbatim. -/
theorem c1_counterexample_type_case :
    ((applyPose ((serializePose depsFull stOrigTagged "T").getD .vnull)
        depsFull stFresh).1.props.map (fun p => p.userDataType))
      = [some "sphere"]
    ∧ stOrigTagged.props.map (fun p => p.userDataType) = [some "Sphere"]
    ∧ (serializePose depsFull stOrigTagged "T").isSome = true
    ∧ ((applyPose ((serializePose depsFull stOrigTagged "T").getD .vnull)
        depsFull stFresh).1.props.map (fun p => p.userDataType))
      ≠ stOrigTagged.props.map (fun p => p.userDataType) := by
  decide

/-- C1 (amended).  Round trip: serializing a well-formed world (unique
joint names, 4-element quaternions) and fully applying the document to a
structurally identical fresh world (same joint names, valid collaborators,
a factory appending exactly one prop per call) succeeds and reproduces
every joint's orientation quaternion and every prop's position,
orientation, scale, and *effective serialized type*; the stored type tag
comes back as `some` of the serialized type, hence verbatim exactly when
every stored tag is already trimmed and lowercase. -/
theorem c1_round_trip_amended (st0 st1 : St) (deps0 deps1 : Deps)
    (mk : String → PropObj) (now : String)
    (h0 : worldOk deps0 = true)
    (hnd : (st0.joints.map Joint.name).Nodup)
    (h4 : ∀ j ∈ st0.joints, j.quaternion.length = 4)
    (hn : st1.joints.map Joint.name = st0.joints.map Joint.name)
    (h1 : worldOk deps1 = true) (hs1 : deps1.scenePresent = true)
    (hap : deps1.addPropPresent = true)
    (hf : ∀ t, deps1.factory t = [mk t])
    (htt : ∀ p ∈ st0.props, jsToLower (jsTrim (serPropType p)) = serPropType p) :
    ∃ doc, serializePose deps0 st0 now = some doc
    ∧ (applyPose doc deps1 st1).2 = none
    ∧ (applyPose doc deps1 st1).1.joints.map Joint.quaternion
        = st0.joints.map Joint.quaternion
    ∧ (applyPose doc deps1 st1).1.props.map (fun p => p.position)
        = st0.props.map (fun p => p.position)
    ∧ (applyPose doc deps1 st1).1.props.map (fun p => p.quaternion)
        = st0.props.map (fun p => p.quaternion)
    ∧ (applyPose doc deps1 st1).1.props.map (fun p => p.scale)
        = st0.props.map (fun p => p.scale)
    ∧ (applyPose doc deps1 st1).1.props.map serPropType
        = st0.props.map serPropType
    ∧ (applyPose doc deps1 st1).1.props.map (fun p => p.userDataType)
        = st0.props.map (fun p => some (serPropType p)) := by
  have h0' : (deps0.worldPresent && deps0.jointsPresent && deps0.propsPresent)
      = true := h0
  have hok : applyOk (.vobj
      { joints := .jmap (buildJointsMap st0.joints)
        props := .parr (st0.props.map serializeProp)
        notes := .nstr (if deps0.poseNotesPresent then st0.notes else "")
        version := some 1, savedAt := some now }) deps1 = true := by
    have h1' := h1
    unfold worldOk at h1'
    simp [applyOk, jsFalsy, jsTypeofObject, hs1, h1']
  have hE := applyPose_of_ok _ deps1 st1 hok
  have hdt : ∀ p ∈ st0.props, descType (serializeProp p) = serPropType p := by
    intro p hp
    have hshape : descType (serializeProp p)
        = (if jsToLower (jsTrim (serPropType p)) = ""
           then inferTypeFromLegacyName p.name
           else jsToLower (jsTrim (serPropType p))) := rfl
    rw [hshape, htt p hp, if_neg (serPropType_ne_nil p)]
  refine ⟨.vobj
    { joints := .jmap (buildJointsMap st0.joints)
      props := .parr (st0.props.map serializeProp)
      notes := .nstr (if deps0.poseNotesPresent then st0.notes else "")
      version := some 1, savedAt := some now },
    by simp [serializePose, h0'], ?_, ?_, ?_, ?_, ?_, ?_, ?_⟩
  · rw [hE]
  · rw [hE, applyPoseBody_eq]
    simp only [JVal.jointsField]
    exact roundtrip_joints st0.joints st1.joints hn hnd h4
  all_goals (
    rw [hE, applyPoseBody_eq]
    simp only [JVal.propsField]
    rw [foldl_rebuildStep_factory_one deps1 mk hap hf, List.nil_append,
      List.map_map, List.map_map])
  · rfl
  · rfl
  · rfl
  · refine List.map_congr_left ?_
    intro p hp
    show (if descType (serializeProp p) = ""
        then inferTypeFromLegacyName (applyDesc (descType (serializeProp p))
          (serializeProp p) (mk (descType (serializeProp p)))).name
        else descType (serializeProp p)) = serPropType p
    rw [hdt p hp, if_neg (serPropType_ne_nil p)]
  · refine List.map_congr_left ?_
    intro p hp
    show some (descType (serializeProp p)) = some (serPropType p)
    rw [hdt p hp]


/-- C1 (witness): a world with one rotated joint and one
normalized-type prop round-trips onto the fresh world. -/
theorem c1_round_trip_witness :
    ∃ doc, serializePose depsFull stOrigNorm "T" = some doc
    ∧ (applyPose doc depsFull stFresh).2 = none
    ∧ (applyPose doc depsFull stFresh).1.joints.map Joint.quaternion
        = stOrigNorm.joints.map Joint.quaternion
    ∧ (applyPose doc depsFull stFresh).1.props.map (fun p => p.position)
        = stOrigNorm.props.map (fun p => p.position)
    ∧ (applyPose doc depsFull stFresh).1.props.map (fun p => p.quaternion)
        = stOrigNorm.props.map (fun p => p.quaternion)
    ∧ (applyPose doc depsFull stFresh).1.props.map (fun p => p.scale)
        = stOrigNorm.props.map (fun p => p.scale)
    ∧ (applyPose doc depsFull stFresh).1.props.map serPropType
        = stOrigNorm.props.map serPropType
    ∧ (applyPose doc depsFull stFresh).1.props.map (fun p => p.userDataType)
        = stOrigNorm.props.map (fun p => some (serPropType p)) :=
  c1_round_trip_amended stOrigNorm stFresh depsFull depsFull mkFreshProp "T"
    (by decide) (by decide) (by decide) (by decide) (by decide) (by decide)
    (by decide) (fun t => rfl) (by decide)

/-- C6.  Per-file failure isolation in `importPosePack`: for every
batch, the returned count is exactly the number of candidate files whose
read, parse, and apply all succeed — a failing file is logged (one
`console.warn`) and skipped while the loop continues — and concretely,
importing three files where the second is invalid JSON yields a count
of 2. -/
theorem c6_import_failure_isolation :
    (∀ (files : List JFile) (deps : ImportDeps) (st : St),
      (importPosePack files deps st).1
        = (if files.isEmpty then none
           else some ((files.filter (fun f => importOk deps f)).length))
      ∧ (importPosePack files deps st).2.warnings
        = st.warnings + (files.filter (fun f => importFails deps f)).length)
    ∧ (importPosePack [fileOkA, fileBadB, fileOkC] idepsFull stFresh).1
        = some 2 := by
  constructor
  · intro files deps st
    constructor
    · unfold importPosePack
      split_ifs <;> simp_all [foldl_importStep_fst, List.isEmpty_iff]
    · unfold importPosePack
      split_ifs <;> simp_all [foldl_importStep_warnings, List.isEmpty_iff]
  · decide

/-- C7 (counterexample).  On the empty batch, `importPosePack` hits the
`if (!files || !files.length) return;` guard: it returns `undefined`
rather than a count, fires no render hook, and emits no summary
notification, although all hooks are supplied. -/
theorem c7_counterexample_empty_batch :
    (importPosePack [] idepsFull stFresh).1 = none
    ∧ (importPosePack [] idepsFull stFresh).2 = stFresh
    ∧ idepsFull.toastPresent = true
    ∧ idepsFull.renderPresent = true
    ∧ (importPosePack [] idepsFull stFresh).1 ≠ some 0 := by
  decide

/-- C7 (amended).  For every *non-empty* batch (with per-item apply
toasts suppressed, as the pipeline wires them), `importPosePack` counts
exactly the `.json`-named files that import successfully — non-`.json`
files are neither counted nor warned about — then fires the gallery
re-render hook exactly once when supplied, and emits exactly one summary
notification: the count message, or the zero message when nothing imported.
The empty batch instead returns no count and emits nothing. -/
theorem c7_import_summary_amended (files : List JFile) (deps : ImportDeps)
    (st : St) (hne : files ≠ [])
    (hq : deps.applyDeps.showToastPresent = false) :
    (importPosePack files deps st).1
      = some ((files.filter (fun f => importOk deps f)).length)
    ∧ (∀ f ∈ files, isJsonName f.name = false →
        importOk deps f = false ∧ importFails deps f = false)
    ∧ (importPosePack files deps st).2.galleryRenders
      = st.galleryRenders + (if deps.renderPresent then 1 else 0)
    ∧ (deps.toastPresent = true →
        (importPosePack files deps st).2.toasts
          = st.toasts ++
            [(summaryMsg ((files.filter (fun f => importOk deps f)).length),
              none)])
    ∧ (deps.toastPresent = false →
        (importPosePack files deps st).2.toasts = st.toasts)
    ∧ summaryMsg 0 = "No valid poses imported" := by
  have hemp : files.isEmpty = false := by
    cases files with
    | nil => exact absurd rfl hne
    | cons f rest => rfl
  refine ⟨?_, ?_, ?_, ?_, ?_, rfl⟩
  · unfold importPosePack
    rw [hemp]
    split_ifs <;> simp_all [foldl_importStep_fst]
  · intro f hfm hjson
    exact ⟨by simp [importOk, hjson], by simp [importFails, hjson]⟩
  · unfold importPosePack
    rw [hemp]
    split_ifs <;> simp_all [foldl_importStep_galleryRenders]
  · intro ht
    unfold importPosePack
    rw [hemp]
    split_ifs <;>
      simp_all [foldl_importStep_toasts deps files hq, foldl_importStep_fst]
  · intro ht
    unfold importPosePack
    rw [hemp]
    split_ifs <;> simp_all [foldl_importStep_toasts deps files hq]


/-- C7 (witness): the three-file batch is non-empty, so the amended
statement applies: count 2, one render, one summary toast. -/
theorem c7_import_summary_witness :
    (importPosePack [fileOkA, fileBadB, fileOkC] idepsFull stFresh).1
      = some (([fileOkA, fileBadB, fileOkC].filter
          (fun f => importOk idepsFull f)).length)
    ∧ (importPosePack [fileOkA, fileBadB, fileOkC] idepsFull
        stFresh).2.galleryRenders
      = stFresh.galleryRenders + (if idepsFull.renderPresent then 1 else 0)
    ∧ (importPosePack [fileOkA, fileBadB, fileOkC] idepsFull stFresh).2.toasts
      = stFresh.toasts ++ [(summaryMsg (([fileOkA, fileBadB, fileOkC].filter
          (fun f => importOk idepsFull f)).length), none)]
    ∧ ([fileOkA, fileBadB, fileOkC].filter
        (fun f => importOk idepsFull f)).length = 2 := by
  have h := c7_import_summary_amended [fileOkA, fileBadB, fileOkC] idepsFull
    stFresh (by decide) rfl
  exact ⟨h.1, h.2.2.1, h.2.2.2.1 rfl, by decide⟩

end PoseIO
